import Mathlib

/-!
# kontinuous `api/auth.go`: authentication filters and the GitHub login handler

A shallow embedding of `src/api/auth.go`.

* Go strings are modelled by Lean `String`s, read as sequences of runes.  The byte-indexed
  operations of `parseToken` (`len(ah) > 6`, `ah[0:7]`, `ah[7:]`) are kept: the length test uses
  the UTF-8 byte length, and the two slices are taken on runes, which is the same thing whenever
  the first seven bytes are ASCII; when they are not, `strings.EqualFold(_, "BEARER ")` fails in
  Go and in the model alike, so the model and the code agree on every well-formed string.
* `req.QueryParameter` is `http.Request.FormValue`: a parameter is looked up in a form-encoded
  body, then in the URL query, then in a multipart body.
* The package-level variable `claims`, the request and response objects (both passed by pointer)
  and the sequence of calls made to external collaborators are threaded explicitly in `State`.
* Everything living outside `auth.go` that the file calls (environment, base64, `jwt.Parse`,
  the HTTP client, `json.Unmarshal`, `CreateJWT`, `GetGithubUser`, `User.Save`) is a field of `Env`;
  the calls made to them are recorded, in order, in `State.calls`.
* A filter receives the rest of the chain as a function, as in go-restful, where
  `chain.ProcessFilter(req, resp)` runs the remaining filters and the route's handler.
-/

namespace Kontinuous

/-! ## Go standard library: `unicode`, `strings` -/

/-- Go `unicode.IsSpace`: the Latin-1 spaces and the code points with the White_Space property. -/
def IsSpace (c : Char) : Bool :=
  let r := c.toNat
  r == 0x09 || r == 0x0A || r == 0x0B || r == 0x0C || r == 0x0D || r == 0x20 ||
  r == 0x85 || r == 0xA0 || r == 0x1680 || (0x2000 ≤ r && r ≤ 0x200A) ||
  r == 0x2028 || r == 0x2029 || r == 0x202F || r == 0x205F || r == 0x3000

/-- Go `strings.TrimSpace`: the string without its leading and trailing white space. -/
def TrimSpace (s : String) : String :=
  String.mk ((s.data.dropWhile IsSpace).rdropWhile IsSpace)

/-- Go `unicode.SimpleFold` on the folding orbits of the ASCII runes: a letter and its other case,
with the two three-element orbits `K k U+212A` and `S s U+017F`; every other ASCII rune is alone
in its orbit.  `EqualFold` below only ever folds a rune of such an orbit. -/
def SimpleFold (r : Nat) : Nat :=
  if r = 0x4B then 0x6B
  else if r = 0x6B then 0x212A
  else if r = 0x212A then 0x4B
  else if r = 0x53 then 0x73
  else if r = 0x73 then 0x17F
  else if r = 0x17F then 0x53
  else if 0x41 ≤ r ∧ r ≤ 0x5A then r + 0x20
  else if 0x61 ≤ r ∧ r ≤ 0x7A then r - 0x20
  else r

/-- The loop `for r != sr && r < tr { r = unicode.SimpleFold(r) }` of `strings.EqualFold`.  An
orbit of an ASCII rune has at most three elements, so the loop body runs at most twice; `n` bounds
the number of iterations. -/
def foldLoop (sr tr : Nat) : Nat → Nat → Nat
  | 0, r => r
  | n + 1, r => if r ≠ sr ∧ r < tr then foldLoop sr tr n (SimpleFold r) else r

/-- One round of the loop of `strings.EqualFold`: do the runes `sr` and `tr` match under simple
case folding?  At least one of the two is ASCII (the second operand of the only call is the
literal `"BEARER "`). -/
def equalFoldRune (sr0 tr0 : Nat) : Bool :=
  if tr0 = sr0 then true
  else
    -- make sr < tr
    let sr := if tr0 < sr0 then tr0 else sr0
    let tr := if tr0 < sr0 then sr0 else tr0
    if tr < 0x80 ∧ 0x41 ≤ sr ∧ sr ≤ 0x5A then
      -- ASCII, and sr is upper case: tr must be lower case
      decide (tr = sr + 0x61 - 0x41)
    else
      -- general case
      decide (foldLoop sr tr 3 (SimpleFold sr) = tr)

/-- Go `strings.EqualFold` on rune sequences, for an ASCII second operand. -/
def equalFoldRunes : List Char → List Char → Bool
  | s :: ss, t :: ts => if equalFoldRune s.toNat t.toNat then equalFoldRunes ss ts else false
  | [], [] => true
  | _, _ => false

/-- Go `strings.EqualFold(s, t)`, for an ASCII `t`. -/
def EqualFold (s t : String) : Bool :=
  equalFoldRunes s.data t.data

/-- Go `len(s)`: the number of bytes of `s`. -/
def len (s : String) : Nat :=
  s.utf8ByteSize

/-- Go `s[0:n]`, for a prefix that lies on rune boundaries. -/
def sliceTo (s : String) (n : Nat) : String :=
  String.mk (s.data.take n)

/-- Go `s[n:]`, reached only after the first `n` bytes were matched against ASCII text. -/
def sliceFrom (s : String) (n : Nat) : String :=
  String.mk (s.data.drop n)

/-! ## `net/http` requests as seen through go-restful -/

/-- Go `http.Header` and `url.Values`: a map from a key to its list of values. -/
abbrev Values := List (String × List String)

/-- Go `Header.Get` / `Values.Get`: the first value of the key, `""` when there is none. -/
def Values.Get (v : Values) (key : String) : String :=
  match v.lookup key with
  | some (x :: _) => x
  | _ => ""

/-- Go `Header.Set` / `Values.Set`: the key now maps to the single value `value`. -/
def Values.Set (v : Values) (key value : String) : Values :=
  (key, [value]) :: v.filter (fun kv => kv.1 != key)

/-- Go `Header.Add`: append `value` to the values of the key. -/
def Values.Add (v : Values) (key value : String) : Values :=
  match v.lookup key with
  | some xs => (key, xs ++ [value]) :: v.filter (fun kv => kv.1 != key)
  | none => v ++ [(key, [value])]

/-- Go `v[key]`: the values of the key, none when the key is absent. -/
def Values.values (v : Values) (key : String) : List String :=
  (v.lookup key).getD []

/-- The part of `restful.Request` the file reads and writes: the headers, the values of the URL
query, and the values of the request body as `net/http` parses them: `PostForm` holds the values
of an `application/x-www-form-urlencoded` body of a POST, PUT or PATCH request, `MultipartForm`
those of a `multipart/form-data` body; both are empty for a request without such a body. -/
structure Request where
  Header : Values
  Query : Values
  PostForm : Values := []
  MultipartForm : Values := []
  deriving DecidableEq

/-- Go `http.Request.FormValue(key)`: the first value of `r.Form[key]`, `""` when there is none.
`ParseMultipartForm` fills `r.Form[key]` with the values of a form-encoded body, then those of
the URL query, then those of a multipart body. -/
def Request.FormValue (req : Request) (key : String) : String :=
  match req.PostForm.values key ++ req.Query.values key ++ req.MultipartForm.values key with
  | x :: _ => x
  | [] => ""

/-- The go-restful accessor `req.HeaderParameter(name)`, which is `r.Request.Header.Get(name)`. -/
def Request.HeaderParameter (req : Request) (name : String) : String :=
  req.Header.Get name

/-- The go-restful accessor `req.QueryParameter(name)`, which is `r.Request.FormValue(name)`: it
reads the body values as well as the URL query, a form-encoded body first. -/
def Request.QueryParameter (req : Request) (name : String) : String :=
  req.FormValue name

/-! ## `parseToken` -/

/-- Source `parseToken` (auth.go, lines 185-197). -/
def parseToken (req : Request) : String :=
  let ah := req.HeaderParameter "Authorization"
  if ah ≠ "" ∧ len ah > 6 ∧ EqualFold (sliceTo ah 7) "BEARER " = true then
    TrimSpace (sliceFrom ah 7)
  else
    let idt := req.QueryParameter "id_token"
    if idt ≠ "" then TrimSpace idt else ""

/-! ## Decoded JSON and tokens -/

/-- A value decoded by `encoding/json` into an `interface{}`: `nil`, `bool`, `float64`, `string`,
`[]interface{}` or `map[string]interface{}`. -/
inductive JVal where
  | null
  | bool (b : Bool)
  | number (x : ℚ)
  | string (s : String)
  | array (xs : List JVal)
  | object (kvs : List (String × JVal))

/-- The fields of `jwt.Token` the file reads. -/
structure Token where
  Valid : Bool
  Claims : List (String × JVal)

/-- Go run-time panics the file can raise. -/
inductive Panic where
  | interfaceConversion
  | indexOutOfRange
  deriving DecidableEq

/-- The expression
`token.Claims["identities"].([]interface{})[0].(map[string]interface{})["access_token"].(string)`
of `authenticate` (line 63), applied to the non-nil value of the `identities` claim.  Each type
assertion is unchecked and panics when the dynamic type differs; indexing an empty slice panics. -/
def firstAccessToken (identities : JVal) : Except Panic String :=
  match identities with
  | JVal.array xs =>
    match xs with
    | [] => Except.error Panic.indexOutOfRange
    | x :: _ =>
      match x with
      | JVal.object m =>
        match m.lookup "access_token" with
        | some (JVal.string c) => Except.ok c
        | _ => Except.error Panic.interfaceConversion
      | _ => Except.error Panic.interfaceConversion
  | _ => Except.error Panic.interfaceConversion

/-! ## Data of the file -/

/-- Source `GithubAuthResponse`. -/
structure GithubAuthResponse where
  AccessToken : String
  deriving DecidableEq

/-- Source `JWTClaims`: the claims from the jwt. -/
structure JWTClaims where
  GithubAccessToken : String
  deriving DecidableEq

/-- Source `AuthResponse`. -/
structure AuthResponse where
  JWT : String
  UserID : String
  deriving DecidableEq

/-- The result of `GetGithubUser`: the login name and the numeric id of the profile.  The type is
declared outside auth.go; the id is an integer, printed by `%v` in decimal. -/
structure GithubUser where
  Login : String
  ID : Int
  deriving DecidableEq

/-- The fields of `pipeline.User` that `githubLogin` fills in. -/
structure User where
  Name : String
  RemoteID : String
  Token : String
  deriving DecidableEq

/-- Go `url.URL`, with the query kept as the `url.Values` that `q.Encode()` serialises. -/
structure URL where
  Scheme : String
  Host : String
  Path : String
  RawQuery : Values
  deriving DecidableEq

/-- The outgoing `http.Request` built by `githubLogin`. -/
structure HttpRequest where
  Method : String
  URL : URL
  Header : Values
  deriving DecidableEq

/-- The `http.Response` of the token endpoint: its status code, and what `ioutil.ReadAll` makes of
its body (the bytes read, or a read error). -/
structure HttpResponse where
  StatusCode : Nat
  Body : Except String String

/-- Go `http.StatusOK`. -/
def StatusOK : Nat := 200

/-- Go `http.StatusBadRequest`. -/
def StatusBadRequest : Nat := 400

/-- Go `http.StatusUnauthorized`. -/
def StatusUnauthorized : Nat := 401

/-- One write to the `restful.Response`. -/
inductive Write where
  /-- The go-restful call `resp.WriteServiceError(httpStatus, restful.ServiceError{Message: ..})`. -/
  | ServiceError (httpStatus : Nat) (Message : String)
  /-- The helper call `jsonError(resp, statusCode, err, msg)`. -/
  | Error (statusCode : Nat) (err : String) (msg : String)
  /-- The go-restful call `res.WriteEntity(entity)`. -/
  | Entity (entity : AuthResponse)
  deriving DecidableEq

/-- The HTTP status a write sends: the status handed to `WriteServiceError` or `jsonError`, and
`http.StatusOK` for `WriteEntity`. -/
def Write.status : Write → Nat
  | Write.ServiceError httpStatus _ => httpStatus
  | Write.Error statusCode _ _ => statusCode
  | Write.Entity _ => StatusOK

/-- The writes made to a `restful.Response`, oldest first. -/
abbrev Response := List Write

/-- Modelled from the spec: the helper `jsonError(resp, status, err, msg)` is defined outside
auth.go.  Every failure maps to an HTTP status and a uniform JSON error envelope with a status code
and a human-readable message; the model records the write with the status, the error (a Go `error`
is modelled by its text) and the description it was given. -/
def jsonError (resp : Response) (statusCode : Nat) (err : String) (msg : String) : Response :=
  resp ++ [Write.Error statusCode err msg]

/-- A call made to a collaborator outside the file. -/
inductive Call where
  /-- The call `jwt.Parse(authToken, keyFunc)` where `keyFunc` returns `key`. -/
  | Parse (authToken : String) (key : List Nat)
  /-- The network call `client.Do(r)` to the IdP token endpoint. -/
  | Do (r : HttpRequest)
  /-- The signing call `CreateJWT(accessToken, secret)`. -/
  | CreateJWT (accessToken secret : String)
  /-- The profile fetch `GetGithubUser(accessToken)`. -/
  | GetGithubUser (accessToken : String)
  /-- The store write `user.Save(a.KVClient)`. -/
  | Save (user : User)
  deriving DecidableEq

/-- What the file calls but does not define.  A Go `error` is modelled by its text and a nil
error by `none` (or by `Except.ok`). -/
structure Env where
  /-- Go `os.Getenv`. -/
  Getenv : String → String
  /-- Go `base64.URLEncoding.DecodeString`: the bytes decoded (all of them, or those decoded before
  the first corrupt input) and the error, if any. -/
  DecodeString : String → List Nat × Option String
  /-- The jwt-go call `jwt.Parse(tokenString, keyFunc)` for a `keyFunc` returning the given key:
  an error, or the parsed token. -/
  Parse : String → List Nat → Except String Token
  /-- The error of Go `http.NewRequest(method, url, nil)`, if any. -/
  NewRequest : String → URL → Option String
  /-- Go `client.Do(r)`. -/
  Do : HttpRequest → Except String HttpResponse
  /-- Go `json.Unmarshal(body, &ghRes)` into a zero `GithubAuthResponse`. -/
  Unmarshal : String → Except String GithubAuthResponse
  /-- Package function `CreateJWT(accessToken, secret)`, defined outside auth.go. -/
  CreateJWT : String → String → Except String String
  /-- Package function `GetGithubUser(accessToken)`, defined outside auth.go. -/
  GetGithubUser : String → Except String GithubUser
  /-- The error of `user.Save(a.KVClient)` (package `pipeline`), if any. -/
  Save : User → Option String

/-- What a filter or handler works on: the package-level variable `claims`, the request and the
response it was handed (both by pointer), and the calls made so far. -/
structure State where
  claims : JWTClaims
  req : Request
  resp : Response
  calls : List Call
  deriving DecidableEq

/-- How the handling of a request ends: the function returns, or it panics; in either case with
the state it leaves behind. -/
inductive Outcome where
  | returned (s : State)
  | panicked (p : Panic) (s : State)
  deriving DecidableEq

/-- The rest of a `restful.FilterChain`: `chain.ProcessFilter(req, resp)`. -/
abbrev Chain := State → Outcome

/-! ## The two filters -/

/-- Source `authenticate` (auth.go, lines 44-69).  The error of `DecodeString` is discarded, as
in line 52; `err == nil && token.Valid` is the `Except.ok` branch with `token.Valid`. -/
def authenticate (env : Env) (s : State) (chain : Chain) : Outcome :=
  let authToken := parseToken s.req
  if authToken = "" then
    Outcome.returned
      { s with resp := s.resp ++ [Write.ServiceError StatusUnauthorized "Missing Access Token!"] }
  else
    -- dsecret, _ := base64.URLEncoding.DecodeString(os.Getenv("AUTH_SECRET"))
    let dsecret := (env.DecodeString (env.Getenv "AUTH_SECRET")).1
    let s1 := { s with calls := s.calls ++ [Call.Parse authToken dsecret] }
    match env.Parse authToken dsecret with
    | Except.ok token =>
      if token.Valid = true then
        let s2 := { s1 with claims := { GithubAccessToken := "" } }
        match token.Claims.lookup "identities" with
        | none => chain s2
        | some JVal.null => chain s2
        | some identities =>
          match firstAccessToken identities with
          | Except.ok c => chain { s2 with claims := { GithubAccessToken := c } }
          | Except.error p => Outcome.panicked p s2
      else
        Outcome.returned
          { s1 with resp := jsonError s1.resp StatusUnauthorized "Unauthorized!" "Unauthorized request" }
    | Except.error _ =>
      Outcome.returned
        { s1 with resp := jsonError s1.resp StatusUnauthorized "Unauthorized!" "Unauthorized request" }

/-- Source `requireAccessToken` (auth.go, lines 71-79). -/
def requireAccessToken (s : State) (chain : Chain) : Outcome :=
  if len s.claims.GithubAccessToken = 0 then
    Outcome.returned
      { s with resp := jsonError s.resp StatusBadRequest "Missing Access Token!" "Unable to find access token" }
  else
    chain { s with req := { s.req with Header := s.req.Header.Set "Authorization" s.claims.GithubAccessToken } }

/-! ## The login handler -/

/-- Source `githubLogin` (auth.go, lines 99-183).  The status code of the answer is never read;
the deferred `authRes.Body.Close()` touches nothing that is modelled. -/
def githubLogin (env : Env) (s : State) : Outcome :=
  let dsecret := env.Getenv "AUTH_SECRET"
  let authCode := s.req.QueryParameter "code"
  let state := s.req.QueryParameter "state"
  if len authCode = 0 then
    Outcome.returned
      { s with resp := jsonError s.resp StatusUnauthorized "Missing Authorization Code" "No authorization code provided" }
  else
    -- request url
    let q : Values := []
    let q := q.Set "client_id" (env.Getenv "GITHUB_CLIENT_ID")
    let q := q.Set "client_secret" (env.Getenv "GITHUB_CLIENT_SECRET")
    let q := q.Set "code" authCode
    let q := q.Set "state" state
    let reqUrl : URL :=
      { Scheme := "https", Host := "github.com", Path := "login/oauth/access_token", RawQuery := q }
    match env.NewRequest "POST" reqUrl with
    | some err =>
      Outcome.returned
        { s with resp := jsonError s.resp StatusUnauthorized err "Error creating auth request" }
    | none =>
      let r : HttpRequest :=
        { Method := "POST", URL := reqUrl, Header := Values.Add [] "Accept" "application/json" }
      let s1 := { s with calls := s.calls ++ [Call.Do r] }
      match env.Do r with
      | Except.error err =>
        Outcome.returned
          { s1 with resp := jsonError s1.resp StatusUnauthorized err "Error requesting authorization token" }
      | Except.ok authRes =>
        match authRes.Body with
        | Except.error err =>
          Outcome.returned
            { s1 with resp := jsonError s1.resp StatusUnauthorized err "Error reading response body" }
        | Except.ok body =>
          match env.Unmarshal body with
          | Except.error err =>
            Outcome.returned
              { s1 with resp := jsonError s1.resp StatusUnauthorized err "Error reading json body" }
          | Except.ok ghRes =>
            let accessToken := ghRes.AccessToken
            let s2 := { s1 with calls := s1.calls ++ [Call.CreateJWT accessToken dsecret] }
            match env.CreateJWT accessToken dsecret with
            | Except.error err =>
              Outcome.returned
                { s2 with resp := jsonError s2.resp StatusUnauthorized err "Unable to create jwt for user" }
            | Except.ok jwtToken =>
              let s3 := { s2 with calls := s2.calls ++ [Call.GetGithubUser accessToken] }
              match env.GetGithubUser accessToken with
              | Except.error err =>
                Outcome.returned
                  { s3 with resp := jsonError s3.resp StatusUnauthorized err "Unable to get github user" }
              | Except.ok ghUser =>
                let userID := "github|" ++ toString ghUser.ID
                let user : User := { Name := ghUser.Login, RemoteID := userID, Token := accessToken }
                let s4 := { s3 with calls := s3.calls ++ [Call.Save user] }
                match env.Save user with
                | some err =>
                  Outcome.returned
                    { s4 with resp := jsonError s4.resp StatusUnauthorized err "Unable to register user" }
                | none =>
                  let entity : AuthResponse := { JWT := jwtToken, UserID := userID }
                  Outcome.returned { s4 with resp := s4.resp ++ [Write.Entity entity] }

/-! ## The Bearer scheme, as the specification words it -/

/-- Is `c` one of the two given letters (the lower-case and the upper-case form of a letter)? -/
def eitherCase (lower upper c : Char) : Bool :=
  c == lower || c == upper

/-- The spellings of the scheme name: the six letters of `bearer`, each in upper or lower case. -/
def bearerSpelling (sp : String) : Bool :=
  match sp.data with
  | [c1, c2, c3, c4, c5, c6] =>
    eitherCase 'b' 'B' c1 && eitherCase 'e' 'E' c2 && eitherCase 'a' 'A' c3 &&
    eitherCase 'r' 'R' c4 && eitherCase 'e' 'E' c5 && eitherCase 'r' 'R' c6
  | _ => false

/-! ## The request `githubLogin` sends to the IdP -/

/-- The URL `githubLogin` builds for a login request (lines 112-122). -/
def tokenEndpointURL (env : Env) (req : Request) : URL where
  Scheme := "https"
  Host := "github.com"
  Path := "login/oauth/access_token"
  RawQuery :=
    [("state", [req.QueryParameter "state"]), ("code", [req.QueryParameter "code"]),
     ("client_secret", [env.Getenv "GITHUB_CLIENT_SECRET"]),
     ("client_id", [env.Getenv "GITHUB_CLIENT_ID"])]

/-- The request `githubLogin` hands to `client.Do` (lines 126-131). -/
def tokenEndpointRequest (env : Env) (req : Request) : HttpRequest where
  Method := "POST"
  URL := tokenEndpointURL env req
  Header := [("Accept", ["application/json"])]

/-! ## Concrete environments and requests -/

/-- The bytes of the text `secret`, which the URL-safe base64 text `c2VjcmV0` decodes to. -/
def secretBytes : List Nat := [115, 101, 99, 114, 101, 116]

/-- An environment for the filters.  `AUTH_SECRET` has the given value; the decoder is given on
the values used here: `c2VjcmV0` decodes to `secret`, and `c2VjcmV0!` decodes to `secret` and
then fails on its ninth byte.  `jwt.Parse` accepts the token `signed.with.secret` under the key
`secret`, as a valid token with the given claims, and rejects everything else. -/
def filterEnv (authSecret : String) (tokenClaims : List (String × JVal)) : Env where
  Getenv := fun name => if name = "AUTH_SECRET" then authSecret else ""
  DecodeString := fun v =>
    if v = "c2VjcmV0" then (secretBytes, none)
    else if v = "c2VjcmV0!" then (secretBytes, some "illegal base64 data at input byte 8")
    else ([], some "illegal base64 data at input byte 0")
  Parse := fun authToken key =>
    if key = secretBytes ∧ authToken = "signed.with.secret" then
      Except.ok { Valid := true, Claims := tokenClaims }
    else Except.error "signature is invalid"
  NewRequest := fun _ _ => none
  Do := fun _ => Except.error "no network"
  Unmarshal := fun _ => Except.error "unexpected end of JSON input"
  CreateJWT := fun _ _ => Except.error "unavailable"
  GetGithubUser := fun _ => Except.error "unavailable"
  Save := fun _ => some "unavailable"

/-- A state whose shared `claims` still hold the credential of an earlier caller, with a request
carrying the given `Authorization` header and the given query. -/
def staleState (authorization : String) (query : Values) : State where
  claims := { GithubAccessToken := "gho_previous" }
  req := { Header := [("Authorization", [authorization])], Query := query }
  resp := []
  calls := []

/-- A request whose `Authorization` header is of the Bearer scheme with a whitespace-only token
(the one rune U+00A0, no-break space, which header parsing leaves in place), and whose query
carries `id_token=abc`. -/
def blankBearerRequest : Request where
  Header := [("Authorization", ["Bearer \u00a0"])]
  Query := [("id_token", ["abc"])]

/-- A POST request with no `Authorization` header and an empty URL query, whose form-encoded
body is `id_token=<token>`. -/
def formBodyRequest (token : String) : Request where
  Header := []
  Query := []
  PostForm := [("id_token", [token])]

/-- Is the call a store write? -/
def Call.isSave : Call → Bool
  | Call.Save _ => true
  | _ => false

/-- An environment for the login handler.  The token endpoint answers every request with the
given status and body.  `json.Unmarshal` is given on three bodies: the success body
`\x7b"access_token":"xyz"\x7d`, the JSON error body `\x7b"error":"Not Found"\x7d` (which has no
`access_token` member, so the field keeps its zero value) and anything else, which is not JSON.
Signing always succeeds; the profile of the credential `xyz` is `alice`, id 42, and no other
credential is accepted; the store accepts every write. -/
def loginEnv (status : Nat) (body : String) : Env where
  Getenv := fun name =>
    if name = "AUTH_SECRET" then "c2VjcmV0"
    else if name = "GITHUB_CLIENT_ID" then "client-id"
    else if name = "GITHUB_CLIENT_SECRET" then "client-secret"
    else ""
  DecodeString := fun _ => (secretBytes, none)
  Parse := fun _ _ => Except.error "signature is invalid"
  NewRequest := fun _ _ => none
  Do := fun _ => Except.ok { StatusCode := status, Body := Except.ok body }
  Unmarshal := fun b =>
    if b = "\x7b\"access_token\":\"xyz\"\x7d" then Except.ok { AccessToken := "xyz" }
    else if b = "\x7b\"error\":\"Not Found\"\x7d" then Except.ok { AccessToken := "" }
    else Except.error "invalid character '<' looking for beginning of value"
  CreateJWT := fun accessToken _ => Except.ok ("jwt-for-" ++ accessToken)
  GetGithubUser := fun accessToken =>
    if accessToken = "xyz" then Except.ok { Login := "alice", ID := 42 }
    else Except.error "401 Bad credentials"
  Save := fun _ => none

/-- A login request with the given `code` and the `state` value `st`, on a fresh response. -/
def loginState (code : String) : State where
  claims := { GithubAccessToken := "" }
  req := { Header := [], Query := [("code", [code]), ("state", ["st"])] }
  resp := []
  calls := []

/-! ## Auxiliary facts -/

theorem utf8ByteSize_go_ge (cs : List Char) : cs.length ≤ String.utf8ByteSize.go cs := by
  induction cs with
  | nil => simp [String.utf8ByteSize.go]
  | cons c cs ih =>
    have hc : 0 < c.utf8Size := Char.utf8Size_pos c
    simp only [String.utf8ByteSize.go, List.length_cons]
    omega

theorem length_le_len (s : String) : s.data.length ≤ len s := by
  cases s with
  | mk cs => exact utf8ByteSize_go_ge cs

theorem len_eq_zero_iff (s : String) : len s = 0 ↔ s = "" := by
  constructor
  · intro h
    have h1 := length_le_len s
    have h2 : s.data.length = 0 := by omega
    cases s with
    | mk cs =>
      have h3 : cs = [] := List.length_eq_zero.mp h2
      subst h3
      rfl
  · intro h
    subst h
    rfl

theorem TrimSpace_empty : TrimSpace "" = "" := by
  rfl

theorem Get_Set (v : Values) (key value : String) : (v.Set key value).Get key = value := by
  simp [Values.Get, Values.Set, List.lookup]

/-- A parameter found in none of the three sources reads as the empty string. -/
theorem FormValue_of_absent (req : Request) (key : String)
    (hq : req.Query.lookup key = none) (hp : req.PostForm.lookup key = none)
    (hm : req.MultipartForm.lookup key = none) :
    req.FormValue key = "" := by
  simp [Request.FormValue, Values.values, hq, hp, hm]

/-- Without a body value for the key, `FormValue` reads the URL query. -/
theorem FormValue_of_no_body (req : Request) (key : String)
    (hp : req.PostForm.values key = []) (hm : req.MultipartForm.values key = []) :
    req.FormValue key = req.Query.Get key := by
  unfold Request.FormValue Values.Get
  rw [hp, hm, List.nil_append, List.append_nil]
  unfold Values.values
  cases h : req.Query.lookup key with
  | none => rfl
  | some xs =>
    cases xs with
    | nil => rfl
    | cons x rest => rfl

/-- A value of the key in a form-encoded body comes before every other source. -/
theorem FormValue_of_post (req : Request) (key x : String) (xs : List String)
    (hp : req.PostForm.values key = x :: xs) :
    req.FormValue key = x := by
  unfold Request.FormValue
  rw [hp]
  rfl

theorem equalFoldRune_small (t : Nat) (ht : t = 66 ∨ t = 69 ∨ t = 65 ∨ t = 82) :
    ∀ n, n < 128 → (equalFoldRune n t = true ↔ (n = t ∨ n = t + 32)) := by
  rcases ht with h | h | h | h <;> subst h <;> decide

theorem equalFoldRune_large (t n : Nat) (ht : t = 66 ∨ t = 69 ∨ t = 65 ∨ t = 82) (hn : 128 ≤ n) :
    equalFoldRune n t = false := by
  have h1 : ¬ t = n := by omega
  have h2 : t < n := by omega
  have h3 : ¬ n < 128 := by omega
  have h4 : SimpleFold t = t + 32 := by
    rcases ht with h | h | h | h <;> subst h <;> rfl
  have h5 : SimpleFold (t + 32) = t := by
    rcases ht with h | h | h | h <;> subst h <;> rfl
  have h6 : t + 32 ≠ t ∧ t + 32 < n := ⟨by omega, by omega⟩
  simp [equalFoldRune, h1, h2, h3, h4, h5, h6, foldLoop]

/-- Against a letter of `BEARER` the rune test of `EqualFold` accepts the letter in its two
cases and no other rune, ASCII or not. -/
theorem equalFoldRune_letter (t n : Nat) (ht : t = 66 ∨ t = 69 ∨ t = 65 ∨ t = 82) :
    equalFoldRune n t = true ↔ (n = t ∨ n = t + 32) := by
  by_cases hn : n < 128
  · exact equalFoldRune_small t ht n hn
  · have h := equalFoldRune_large t n ht (by omega)
    simp only [h, Bool.false_eq_true, false_iff]
    omega

theorem equalFoldRune_space (n : Nat) : equalFoldRune n 32 = true ↔ n = 32 := by
  by_cases hn : n < 128
  · revert n
    decide
  · have h1 : ¬ 32 = n := by omega
    have h2 : 32 < n := by omega
    have h3 : ¬ n < 128 := by omega
    have h4 : SimpleFold 32 = 32 := rfl
    have h5 : ¬ n = 32 := by omega
    simp [equalFoldRune, h1, h2, h3, h4, h5, foldLoop]

theorem eitherCase_iff (lower upper c : Char) :
    eitherCase lower upper c = true ↔ (c = lower ∨ c = upper) := by
  simp [eitherCase]

theorem equalFoldRune_char (c lower upper : Char)
    (hu : upper.toNat = 66 ∨ upper.toNat = 69 ∨ upper.toNat = 65 ∨ upper.toNat = 82)
    (hl : lower.toNat = upper.toNat + 32) :
    equalFoldRune c.toNat upper.toNat = true ↔ eitherCase lower upper c = true := by
  rw [equalFoldRune_letter _ _ hu, eitherCase_iff]
  constructor
  · rintro (h | h)
    · right
      rw [← Char.ofNat_toNat c, h, Char.ofNat_toNat]
    · left
      rw [← Char.ofNat_toNat c, h, ← hl, Char.ofNat_toNat]
  · rintro (h | h)
    · right
      rw [h, hl]
    · left
      rw [h]

theorem equalFoldRune_char_space (c : Char) :
    equalFoldRune c.toNat 32 = true ↔ c = ' ' := by
  rw [equalFoldRune_space]
  constructor
  · intro h
    rw [← Char.ofNat_toNat c, h]
  · intro h
    rw [h]
    rfl

theorem equalFoldRunes_cons (s t : Char) (ss ts : List Char) :
    equalFoldRunes (s :: ss) (t :: ts) = true ↔
      (equalFoldRune s.toNat t.toNat = true ∧ equalFoldRunes ss ts = true) := by
  by_cases h : equalFoldRune s.toNat t.toNat = true <;> simp [equalFoldRunes, h]

theorem equalFoldRunes_nil_cons (t : Char) (ts : List Char) :
    equalFoldRunes [] (t :: ts) = false := by
  simp [equalFoldRunes]

theorem equalFoldRunes_nil_nil : equalFoldRunes [] [] = true := by
  simp [equalFoldRunes]

theorem BEARER_data : "BEARER ".data = ['B', 'E', 'A', 'R', 'E', 'R', ' '] := rfl

/-- The test `len(ah) > 6 && strings.EqualFold(ah[0:7], "BEARER ")` of `parseToken`, on a
non-empty header, holds exactly for the header values of the Bearer scheme (a spelling of
`bearer`, a space, and some text), and `ah[7:]` is then that text. -/
theorem bearer_test_iff (ah : String) :
    (ah ≠ "" ∧ len ah > 6 ∧ EqualFold (sliceTo ah 7) "BEARER " = true) ↔
      ∃ sp t : String, bearerSpelling sp = true ∧ ah = sp ++ " " ++ t ∧ sliceFrom ah 7 = t := by
  have hB := fun c => equalFoldRune_char c 'b' 'B' (Or.inl rfl) rfl
  have hE := fun c => equalFoldRune_char c 'e' 'E' (Or.inr (Or.inl rfl)) rfl
  have hA := fun c => equalFoldRune_char c 'a' 'A' (Or.inr (Or.inr (Or.inl rfl))) rfl
  have hR := fun c => equalFoldRune_char c 'r' 'R' (Or.inr (Or.inr (Or.inr rfl))) rfl
  have hS : ∀ c : Char, equalFoldRune c.toNat ' '.toNat = true ↔ c = ' ' :=
    equalFoldRune_char_space
  constructor
  · rintro ⟨-, -, h⟩
    obtain ⟨l⟩ := ah
    rcases l with _ | ⟨c1, _ | ⟨c2, _ | ⟨c3, _ | ⟨c4, _ | ⟨c5, _ | ⟨c6, _ | ⟨c7, rest⟩⟩⟩⟩⟩⟩⟩ <;>
      simp only [EqualFold, sliceTo, BEARER_data, List.take, equalFoldRunes_cons,
        equalFoldRunes_nil_cons, equalFoldRunes_nil_nil, Bool.false_eq_true, and_false,
        hB, hE, hA, hR, hS, and_true] at h
    obtain ⟨h1, h2, h3, h4, h5, h6, h7⟩ := h
    subst h7
    refine ⟨String.mk [c1, c2, c3, c4, c5, c6], String.mk rest, ?_, rfl, rfl⟩
    simp only [bearerSpelling, h1, h2, h3, h4, h5, h6, Bool.and_self]
  · rintro ⟨sp, t, hsp, rfl, -⟩
    obtain ⟨l⟩ := sp
    rcases l with _ | ⟨c1, _ | ⟨c2, _ | ⟨c3, _ | ⟨c4, _ | ⟨c5, _ | ⟨c6, _ | ⟨c7, rest⟩⟩⟩⟩⟩⟩⟩ <;>
      simp only [bearerSpelling, Bool.false_eq_true, Bool.and_eq_true] at hsp
    obtain ⟨⟨⟨⟨⟨h1, h2⟩, h3⟩, h4⟩, h5⟩, h6⟩ := hsp
    have hdata : (String.mk [c1, c2, c3, c4, c5, c6] ++ " " ++ t).data
        = c1 :: c2 :: c3 :: c4 :: c5 :: c6 :: ' ' :: t.data := rfl
    refine ⟨?_, ?_, ?_⟩
    · intro hcontra
      have := congrArg String.data hcontra
      rw [hdata] at this
      exact absurd this (by simp)
    · have := length_le_len (String.mk [c1, c2, c3, c4, c5, c6] ++ " " ++ t)
      rw [hdata] at this
      simp only [List.length_cons] at this
      omega
    · simp only [EqualFold, sliceTo, hdata, BEARER_data, List.take, equalFoldRunes_cons,
        equalFoldRunes_nil_nil, hB, hE, hA, hR, hS, h1, h2, h3, h4, h5, h6, and_self]

/-- The text after the scheme is what `ah[7:]` selects. -/
theorem sliceFrom_of_bearer (sp t : String) (hsp : bearerSpelling sp = true) :
    sliceFrom (sp ++ " " ++ t) 7 = t := by
  obtain ⟨l⟩ := sp
  rcases l with _ | ⟨c1, _ | ⟨c2, _ | ⟨c3, _ | ⟨c4, _ | ⟨c5, _ | ⟨c6, _ | ⟨c7, rest⟩⟩⟩⟩⟩⟩⟩ <;>
    simp only [bearerSpelling, Bool.false_eq_true] at hsp
  rfl

/-- A header of the Bearer scheme passes the test of `parseToken`. -/
theorem bearer_test_of_scheme (ah sp t : String) (hsp : bearerSpelling sp = true)
    (hah : ah = sp ++ " " ++ t) :
    ah ≠ "" ∧ len ah > 6 ∧ EqualFold (sliceTo ah 7) "BEARER " = true :=
  (bearer_test_iff ah).mpr ⟨sp, t, hsp, hah, by rw [hah]; exact sliceFrom_of_bearer sp t hsp⟩

/-- With a header of the Bearer scheme, `parseToken` returns the trimmed text after the scheme. -/
theorem parseToken_of_bearer (req : Request) (sp t : String) (hsp : bearerSpelling sp = true)
    (hah : req.HeaderParameter "Authorization" = sp ++ " " ++ t) :
    parseToken req = TrimSpace t := by
  have h := bearer_test_of_scheme _ sp t hsp hah
  have h2 : sliceFrom (req.HeaderParameter "Authorization") 7 = t := by
    rw [hah]
    exact sliceFrom_of_bearer sp t hsp
  have hdef : parseToken req =
      if req.HeaderParameter "Authorization" ≠ "" ∧
          len (req.HeaderParameter "Authorization") > 6 ∧
          EqualFold (sliceTo (req.HeaderParameter "Authorization") 7) "BEARER " = true then
        TrimSpace (sliceFrom (req.HeaderParameter "Authorization") 7)
      else if req.QueryParameter "id_token" ≠ "" then TrimSpace (req.QueryParameter "id_token")
      else "" := rfl
  rw [hdef, if_pos h, h2]

/-- Without a header of the Bearer scheme, `parseToken` returns the trimmed `id_token`. -/
theorem parseToken_of_not_bearer (req : Request)
    (hno : ¬ ∃ sp t : String, bearerSpelling sp = true ∧
      req.HeaderParameter "Authorization" = sp ++ " " ++ t) :
    parseToken req = TrimSpace (req.QueryParameter "id_token") := by
  have h : ¬ (req.HeaderParameter "Authorization" ≠ "" ∧
      len (req.HeaderParameter "Authorization") > 6 ∧
      EqualFold (sliceTo (req.HeaderParameter "Authorization") 7) "BEARER " = true) := by
    intro hc
    obtain ⟨sp, t, hsp, hah, -⟩ := (bearer_test_iff _).mp hc
    exact hno ⟨sp, t, hsp, hah⟩
  have hdef : parseToken req =
      if req.HeaderParameter "Authorization" ≠ "" ∧
          len (req.HeaderParameter "Authorization") > 6 ∧
          EqualFold (sliceTo (req.HeaderParameter "Authorization") 7) "BEARER " = true then
        TrimSpace (sliceFrom (req.HeaderParameter "Authorization") 7)
      else if req.QueryParameter "id_token" ≠ "" then TrimSpace (req.QueryParameter "id_token")
      else "" := rfl
  rw [hdef, if_neg h]
  by_cases hq : req.QueryParameter "id_token" = ""
  · rw [if_neg (fun hne => hne hq), hq, TrimSpace_empty]
  · rw [if_pos hq]

/-- With a non-empty token, `authenticate` makes the one call `jwt.Parse(token, key)` and then
continues, rejects with the fixed `Unauthorized!` response, or panics; which of the three, and
with which credential, is fixed by the token: the request enters only through `parseToken`. -/
theorem authenticate_nonempty_token (env : Env) (tok : String) (htok : tok ≠ "")
    (claims0 : JWTClaims) (resp0 : Response) (calls0 : List Call) :
    (∃ cl : JWTClaims, ∀ (req : Request) (chain : Chain),
        parseToken req = tok →
        authenticate env { claims := claims0, req := req, resp := resp0, calls := calls0 } chain
          = chain
              { claims := cl, req := req, resp := resp0
                calls := calls0 ++
                  [Call.Parse tok (env.DecodeString (env.Getenv "AUTH_SECRET")).1] })
    ∨ (∀ (req : Request) (chain : Chain),
        parseToken req = tok →
        authenticate env { claims := claims0, req := req, resp := resp0, calls := calls0 } chain
          = Outcome.returned
              { claims := claims0, req := req
                resp := resp0 ++
                  [Write.Error StatusUnauthorized "Unauthorized!" "Unauthorized request"]
                calls := calls0 ++
                  [Call.Parse tok (env.DecodeString (env.Getenv "AUTH_SECRET")).1] })
    ∨ (∃ p : Panic, ∀ (req : Request) (chain : Chain),
        parseToken req = tok →
        authenticate env { claims := claims0, req := req, resp := resp0, calls := calls0 } chain
          = Outcome.panicked p
              { claims := { GithubAccessToken := "" }, req := req, resp := resp0
                calls := calls0 ++
                  [Call.Parse tok (env.DecodeString (env.Getenv "AUTH_SECRET")).1] }) := by
  cases hp : env.Parse tok (env.DecodeString (env.Getenv "AUTH_SECRET")).1 with
  | error e =>
    right; left
    intro req chain hreq
    simp only [authenticate, hreq, htok, hp, jsonError, if_false]
  | ok token =>
    by_cases hv : token.Valid = true
    · cases hl : token.Claims.lookup "identities" with
      | none =>
        left
        refine ⟨{ GithubAccessToken := "" }, ?_⟩
        intro req chain hreq
        simp only [authenticate, hreq, htok, hp, hv, hl, if_false, if_true]
      | some v =>
        by_cases hnull : v = JVal.null
        · left
          refine ⟨{ GithubAccessToken := "" }, ?_⟩
          intro req chain hreq
          subst hnull
          simp only [authenticate, hreq, htok, hp, hv, hl, if_false, if_true]
        · cases hf : firstAccessToken v with
          | ok c =>
            left
            refine ⟨{ GithubAccessToken := c }, ?_⟩
            intro req chain hreq
            cases v <;>
              first
              | exact absurd rfl hnull
              | simp only [authenticate, hreq, htok, hp, hv, hl, hf, if_false, if_true]
          | error p =>
            right; right
            refine ⟨p, ?_⟩
            intro req chain hreq
            cases v <;>
              first
              | exact absurd rfl hnull
              | simp only [authenticate, hreq, htok, hp, hv, hl, hf, if_false, if_true]
    · right; left
      intro req chain hreq
      simp only [authenticate, hreq, htok, hp, hv, jsonError, if_false, Bool.false_eq_true]

/-- The rejections and continuations of `authenticate` are fixed by the extracted token. -/
theorem authenticate_by_token (env : Env) (tok : String) (claims0 : JWTClaims)
    (resp0 : Response) (calls0 : List Call) :
    (∃ (cl : JWTClaims) (calls : List Call), ∀ (req : Request) (chain : Chain),
        parseToken req = tok →
        authenticate env { claims := claims0, req := req, resp := resp0, calls := calls0 } chain
          = chain { claims := cl, req := req, resp := resp0, calls := calls })
    ∨ (∃ (w : Write) (calls : List Call), ∀ (req : Request) (chain : Chain),
        parseToken req = tok →
        authenticate env { claims := claims0, req := req, resp := resp0, calls := calls0 } chain
          = Outcome.returned
              { claims := claims0, req := req, resp := resp0 ++ [w], calls := calls })
    ∨ (∃ (p : Panic) (cl : JWTClaims) (calls : List Call), ∀ (req : Request) (chain : Chain),
        parseToken req = tok →
        authenticate env { claims := claims0, req := req, resp := resp0, calls := calls0 } chain
          = Outcome.panicked p { claims := cl, req := req, resp := resp0, calls := calls }) := by
  by_cases htok : tok = ""
  · right; left
    refine ⟨Write.ServiceError StatusUnauthorized "Missing Access Token!", calls0, ?_⟩
    intro req chain hreq
    simp only [authenticate, hreq, htok, if_true]
  · rcases authenticate_nonempty_token env tok htok claims0 resp0 calls0 with
      ⟨cl, h⟩ | h | ⟨p, h⟩
    · exact Or.inl ⟨cl, _, h⟩
    · exact Or.inr (Or.inl ⟨_, _, h⟩)
    · exact Or.inr (Or.inr ⟨p, _, _, h⟩)

/-! ## The filter chain -/

/-- C1: for a request whose token verifies as valid and whose `identities` claim is a non-empty
list whose first record has a non-empty string `access_token` `c`, whatever the shared `claims`
held before, `authenticate` followed by `requireAccessToken` hands the request on to the handler
with its `Authorization` header set to exactly `c`, the shared credential being `c`, and no
response written. -/
theorem authenticate_requireAccessToken_injects_credential
    (env : Env) (s : State) (handler : Chain) (token : Token)
    (record : List (String × JVal)) (rest : List JVal) (c : String)
    (htok : parseToken s.req ≠ "")
    (hparse : env.Parse (parseToken s.req) (env.DecodeString (env.Getenv "AUTH_SECRET")).1
      = Except.ok token)
    (hvalid : token.Valid = true)
    (hids : token.Claims.lookup "identities" = some (JVal.array (JVal.object record :: rest)))
    (hrec : record.lookup "access_token" = some (JVal.string c))
    (hc : c ≠ "") :
    authenticate env s (fun s1 => requireAccessToken s1 handler) =
      handler
        { claims := { GithubAccessToken := c }
          req := { s.req with Header := s.req.Header.Set "Authorization" c }
          resp := s.resp
          calls := s.calls ++
            [Call.Parse (parseToken s.req) (env.DecodeString (env.Getenv "AUTH_SECRET")).1] }
    ∧ ({ s.req with Header := s.req.Header.Set "Authorization" c } : Request).HeaderParameter
        "Authorization" = c := by
  have hlen : ¬ len c = 0 := fun h => hc ((len_eq_zero_iff c).mp h)
  refine ⟨?_, Get_Set _ _ _⟩
  simp only [authenticate, htok, hparse, hvalid, hids, firstAccessToken, hrec, requireAccessToken,
    hlen, if_false, if_true]

/-- C1, instance: a token carrying the credential `gho_alice`, with a stale credential in the
shared `claims`. -/
theorem authenticate_requireAccessToken_injects_credential_witness :
    authenticate
        (filterEnv "c2VjcmV0"
          [("identities", JVal.array [JVal.object [("access_token", JVal.string "gho_alice")]])])
        (staleState "Bearer signed.with.secret" [])
        (fun s1 => requireAccessToken s1 Outcome.returned) =
      Outcome.returned
        { claims := { GithubAccessToken := "gho_alice" }
          req := { Header := [("Authorization", ["gho_alice"])], Query := [] }
          resp := []
          calls := [Call.Parse "signed.with.secret" [115, 101, 99, 114, 101, 116]] } := by
  have h := (authenticate_requireAccessToken_injects_credential
    (filterEnv "c2VjcmV0"
      [("identities", JVal.array [JVal.object [("access_token", JVal.string "gho_alice")]])])
    (staleState "Bearer signed.with.secret" []) Outcome.returned
    { Valid := true
      Claims := [("identities", JVal.array [JVal.object [("access_token", JVal.string "gho_alice")]])] }
    [("access_token", JVal.string "gho_alice")] [] "gho_alice"
    (by decide) rfl rfl rfl rfl (by decide)).1
  exact h

/-- C2: for a request whose token verifies as valid but has no `identities` claim, whatever the
shared `claims` held before (a previous caller's credential included), `authenticate` continues
the chain with the shared credential cleared, and the following `requireAccessToken` rejects with
status 400 without reaching the handler and with the request, its `Authorization` header
included, left as it was. -/
theorem authenticate_requireAccessToken_no_identities
    (env : Env) (s : State) (handler : Chain) (token : Token)
    (htok : parseToken s.req ≠ "")
    (hparse : env.Parse (parseToken s.req) (env.DecodeString (env.Getenv "AUTH_SECRET")).1
      = Except.ok token)
    (hvalid : token.Valid = true)
    (hids : token.Claims.lookup "identities" = none) :
    (∀ chain : Chain, authenticate env s chain =
      chain
        { claims := { GithubAccessToken := "" }
          req := s.req
          resp := s.resp
          calls := s.calls ++
            [Call.Parse (parseToken s.req) (env.DecodeString (env.Getenv "AUTH_SECRET")).1] })
    ∧ authenticate env s (fun s1 => requireAccessToken s1 handler) =
      Outcome.returned
        { claims := { GithubAccessToken := "" }
          req := s.req
          resp := s.resp ++
            [Write.Error StatusBadRequest "Missing Access Token!" "Unable to find access token"]
          calls := s.calls ++
            [Call.Parse (parseToken s.req) (env.DecodeString (env.Getenv "AUTH_SECRET")).1] }
    ∧ (Write.Error StatusBadRequest "Missing Access Token!" "Unable to find access token").status
        = 400 := by
  have hlen : len "" = 0 := rfl
  refine ⟨?_, ?_, rfl⟩
  · intro chain
    simp only [authenticate, htok, hparse, hvalid, hids, if_false, if_true]
  · simp only [authenticate, htok, hparse, hvalid, hids, requireAccessToken, hlen, jsonError,
      if_false, if_true]

/-- C2, instance: a token without `identities` arrives while the shared `claims` still hold
`gho_previous`; the request is rejected with 400 and its header is untouched. -/
theorem authenticate_requireAccessToken_no_identities_witness :
    authenticate (filterEnv "c2VjcmV0" [("sub", JVal.string "bob")])
        (staleState "Bearer signed.with.secret" [])
        (fun s1 => requireAccessToken s1 Outcome.returned) =
      Outcome.returned
        { claims := { GithubAccessToken := "" }
          req := { Header := [("Authorization", ["Bearer signed.with.secret"])], Query := [] }
          resp := [Write.Error 400 "Missing Access Token!" "Unable to find access token"]
          calls := [Call.Parse "signed.with.secret" [115, 101, 99, 114, 101, 116]] } := by
  have h := (authenticate_requireAccessToken_no_identities
    (filterEnv "c2VjcmV0" [("sub", JVal.string "bob")])
    (staleState "Bearer signed.with.secret" []) Outcome.returned
    { Valid := true, Claims := [("sub", JVal.string "bob")] }
    (by decide) rfl rfl rfl).2.1
  exact h

/-- C3 as stated fails on its first particular case: a request with no `Authorization` header
and no `id_token` in its URL query, whose form-encoded body carries a valid token as `id_token`,
is not rejected: `authenticate` verifies that token and continues the chain. -/
theorem authenticate_accepts_form_body_token :
    (formBodyRequest "signed.with.secret").Header.lookup "Authorization" = none
    ∧ (formBodyRequest "signed.with.secret").Query.lookup "id_token" = none
    ∧ ∀ chain : Chain,
        authenticate (filterEnv "c2VjcmV0" [])
            { claims := { GithubAccessToken := "gho_previous" }
              req := formBodyRequest "signed.with.secret", resp := [], calls := [] } chain
          = chain
              { claims := { GithubAccessToken := "" }
                req := formBodyRequest "signed.with.secret"
                resp := []
                calls := [Call.Parse "signed.with.secret" [115, 101, 99, 114, 101, 116]] } := by
  refine ⟨rfl, rfl, ?_⟩
  intro chain
  rfl

/-- C3, amended: `authenticate` continues the chain only for a non-empty token that verified
without error and is valid.  In every other case, and in particular when the request has no
`Authorization` header and no `id_token` parameter in its URL query, in a form-encoded body or
in a multipart body, it writes one response of status 401 and returns without running the rest
of the chain (the outcome is the same whatever the rest of the chain is); when a token was
extracted and failed verification, the response is the fixed `Unauthorized!` error, whatever the
verification error was. -/
theorem authenticate_rejects_unauthorized
    (env : Env) (s : State)
    (h : (s.req.Header.lookup "Authorization" = none ∧ s.req.Query.lookup "id_token" = none
          ∧ s.req.PostForm.lookup "id_token" = none
          ∧ s.req.MultipartForm.lookup "id_token" = none) ∨
      ¬ (parseToken s.req ≠ "" ∧
          ∃ token, env.Parse (parseToken s.req) (env.DecodeString (env.Getenv "AUTH_SECRET")).1
            = Except.ok token ∧ token.Valid = true)) :
    ∃ (w : Write) (calls : List Call),
      w.status = 401
      ∧ (∀ chain : Chain, authenticate env s chain =
          Outcome.returned { s with resp := s.resp ++ [w], calls := calls })
      ∧ (parseToken s.req = "" →
          w = Write.ServiceError StatusUnauthorized "Missing Access Token!" ∧ calls = s.calls)
      ∧ (parseToken s.req ≠ "" →
          w = Write.Error StatusUnauthorized "Unauthorized!" "Unauthorized request") := by
  by_cases htok : parseToken s.req = ""
  · refine ⟨Write.ServiceError StatusUnauthorized "Missing Access Token!", s.calls, rfl, ?_,
      fun _ => ⟨rfl, rfl⟩, fun hne => absurd htok hne⟩
    intro chain
    simp only [authenticate, htok, if_true]
  · have hbad : ¬ ∃ token, env.Parse (parseToken s.req)
        (env.DecodeString (env.Getenv "AUTH_SECRET")).1 = Except.ok token ∧ token.Valid = true := by
      rcases h with ⟨hh, hq, hp, hm⟩ | h
      · exfalso
        apply htok
        have hform : s.req.QueryParameter "id_token" = "" :=
          FormValue_of_absent s.req "id_token" hq hp hm
        simp [parseToken, Request.HeaderParameter, Values.Get, hh, hform]
      · intro hex
        exact h ⟨htok, hex⟩
    refine ⟨Write.Error StatusUnauthorized "Unauthorized!" "Unauthorized request",
      s.calls ++ [Call.Parse (parseToken s.req) (env.DecodeString (env.Getenv "AUTH_SECRET")).1],
      rfl, ?_, fun he => absurd he htok, fun _ => rfl⟩
    intro chain
    cases hp : env.Parse (parseToken s.req) (env.DecodeString (env.Getenv "AUTH_SECRET")).1 with
    | error e =>
      simp only [authenticate, htok, hp, jsonError, if_false]
    | ok token =>
      have hv : ¬ token.Valid = true := fun hv => hbad ⟨token, hp, hv⟩
      simp only [authenticate, htok, hp, hv, jsonError, if_false, Bool.false_eq_true]

/-- C3, amended, instance: a request with no `Authorization` header, no `id_token` in its query
and no body. -/
theorem authenticate_rejects_unauthorized_witness :
    ∃ (w : Write) (calls : List Call),
      w.status = 401
      ∧ (∀ chain : Chain,
          authenticate (filterEnv "c2VjcmV0" [])
            { claims := { GithubAccessToken := "gho_previous" }
              req := { Header := [], Query := [] }, resp := [], calls := [] } chain =
          Outcome.returned
            { claims := { GithubAccessToken := "gho_previous" }
              req := { Header := [], Query := [] }, resp := [w], calls := calls })
      ∧ w = Write.ServiceError StatusUnauthorized "Missing Access Token!" ∧ calls = [] := by
  obtain ⟨w, calls, hw, hall, hempty, _⟩ := authenticate_rejects_unauthorized
    (filterEnv "c2VjcmV0" [])
    { claims := { GithubAccessToken := "gho_previous" }
      req := { Header := [], Query := [] }, resp := [], calls := [] }
    (Or.inl ⟨rfl, rfl, rfl, rfl⟩)
  exact ⟨w, calls, hw, hall, hempty (by decide)⟩

/-! ## Token extraction -/

/-- C4 as stated fails twice.  The header `Bearer ` followed by a no-break space is of the
Bearer scheme with a whitespace-only token, the query carries `id_token=abc`, and `parseToken`
returns the empty string instead of `abc`.  And for a request with no `Authorization` header and
no `id_token` query parameter whose form-encoded body carries `id_token=frombody`, `parseToken`
returns `frombody`, which is not the trimmed `id_token` query parameter (the empty string). -/
theorem parseToken_blank_bearer_hides_id_token :
    (bearerSpelling "Bearer" = true
      ∧ blankBearerRequest.HeaderParameter "Authorization" = "Bearer" ++ " " ++ "\u00a0"
      ∧ TrimSpace "\u00a0" = ""
      ∧ TrimSpace (blankBearerRequest.Query.Get "id_token") = "abc"
      ∧ parseToken blankBearerRequest = ""
      ∧ parseToken blankBearerRequest ≠ TrimSpace (blankBearerRequest.Query.Get "id_token"))
    ∧ ((formBodyRequest "frombody").Header.lookup "Authorization" = none
      ∧ (formBodyRequest "frombody").Query.lookup "id_token" = none
      ∧ TrimSpace ((formBodyRequest "frombody").Query.Get "id_token") = ""
      ∧ parseToken (formBodyRequest "frombody") = "frombody"
      ∧ parseToken (formBodyRequest "frombody")
          ≠ TrimSpace ((formBodyRequest "frombody").Query.Get "id_token")) := by
  decide

/-- C4, amended: a header of the Bearer scheme (a spelling of `bearer`, a space, then the token
text) always decides the result, which is the trimmed token text even when that is empty.  For
every request whose `Authorization` header is absent or not of the Bearer scheme, `parseToken`
returns the trimmed `id_token` parameter as `req.QueryParameter` reads it: the first `id_token`
value of a form-encoded body when there is one, and the trimmed `id_token` query parameter when
the body carries no `id_token`.  The result is empty only when the token text of a Bearer header
is blank, or there is no Bearer header and that `id_token` parameter is absent or blank. -/
theorem parseToken_header_then_query (req : Request) :
    (∀ sp t : String, bearerSpelling sp = true →
        req.HeaderParameter "Authorization" = sp ++ " " ++ t → parseToken req = TrimSpace t)
    ∧ (req.HeaderParameter "Authorization" = "" →
        parseToken req = TrimSpace (req.FormValue "id_token"))
    ∧ ((¬ ∃ sp t : String, bearerSpelling sp = true ∧
          req.HeaderParameter "Authorization" = sp ++ " " ++ t) →
        parseToken req = TrimSpace (req.FormValue "id_token")
        ∧ (∀ (x : String) (xs : List String), req.PostForm.values "id_token" = x :: xs →
            parseToken req = TrimSpace x)
        ∧ (req.PostForm.values "id_token" = [] → req.MultipartForm.values "id_token" = [] →
            parseToken req = TrimSpace (req.Query.Get "id_token")))
    ∧ (parseToken req = "" →
        (∃ sp t : String, bearerSpelling sp = true ∧
          req.HeaderParameter "Authorization" = sp ++ " " ++ t ∧ TrimSpace t = "")
        ∨ ((¬ ∃ sp t : String, bearerSpelling sp = true ∧
              req.HeaderParameter "Authorization" = sp ++ " " ++ t)
            ∧ TrimSpace (req.FormValue "id_token") = "")) := by
  have habsent : req.HeaderParameter "Authorization" = "" →
      ¬ ∃ sp t : String, bearerSpelling sp = true ∧
        req.HeaderParameter "Authorization" = sp ++ " " ++ t := by
    rintro h0 ⟨sp, t, hsp, hah⟩
    exact (bearer_test_of_scheme _ sp t hsp hah).1 h0
  refine ⟨fun sp t hsp hah => parseToken_of_bearer req sp t hsp hah,
    fun h0 => parseToken_of_not_bearer req (habsent h0), ?_, ?_⟩
  · intro hno
    have hform := parseToken_of_not_bearer req hno
    refine ⟨hform, ?_, ?_⟩
    · intro x xs hp
      rw [hform]
      exact congrArg TrimSpace (FormValue_of_post req "id_token" x xs hp)
    · intro hp hm
      rw [hform]
      exact congrArg TrimSpace (FormValue_of_no_body req "id_token" hp hm)
  · intro hres
    by_cases hb : ∃ sp t : String, bearerSpelling sp = true ∧
        req.HeaderParameter "Authorization" = sp ++ " " ++ t
    · obtain ⟨sp, t, hsp, hah⟩ := hb
      left
      refine ⟨sp, t, hsp, hah, ?_⟩
      rw [← parseToken_of_bearer req sp t hsp hah]
      exact hres
    · right
      refine ⟨hb, ?_⟩
      have hform : parseToken req = TrimSpace (req.FormValue "id_token") :=
        parseToken_of_not_bearer req hb
      rw [← hform]
      exact hres

/-- C4, amended, instances: a Basic header falls through to the `id_token` query parameter when
there is no body, and to the `id_token` of a form-encoded body when there is one; a Bearer
header with a whitespace-only token does not fall through. -/
theorem parseToken_header_then_query_witness :
    parseToken { Header := [("Authorization", ["Basic dXNlcg=="])],
                 Query := [("id_token", [" abc "])] } = "abc"
    ∧ parseToken { Header := [("Authorization", ["Basic dXNlcg=="])],
                   Query := [("id_token", [" abc "])],
                   PostForm := [("id_token", ["frombody"])] } = "frombody"
    ∧ parseToken blankBearerRequest = "" := by
  have hbasic : ∀ req : Request, req.HeaderParameter "Authorization" = "Basic dXNlcg==" →
      ¬ ∃ sp t : String, bearerSpelling sp = true ∧
        req.HeaderParameter "Authorization" = sp ++ " " ++ t := by
    rintro req hreq ⟨sp, t, hsp, hah⟩
    have hb := bearer_test_of_scheme _ sp t hsp hah
    rw [hreq] at hb
    exact absurd hb (by decide)
  have h1 := ((parseToken_header_then_query
    { Header := [("Authorization", ["Basic dXNlcg=="])],
      Query := [("id_token", [" abc "])] }).2.2.1 (hbasic _ rfl)).2.2 rfl rfl
  have h2 := ((parseToken_header_then_query
    { Header := [("Authorization", ["Basic dXNlcg=="])],
      Query := [("id_token", [" abc "])],
      PostForm := [("id_token", ["frombody"])] }).2.2.1 (hbasic _ rfl)).2.1 "frombody" [] rfl
  have h3 := (parseToken_header_then_query blankBearerRequest).1 "Bearer" "\u00a0" (by decide)
    (by decide)
  exact ⟨h1.trans (by decide), h2.trans (by decide), h3.trans (by decide)⟩

/-- C5: the Bearer scheme is matched case-insensitively.  For every token text `t` and every
spelling `sp` of the six letters of `bearer`, `parseToken` returns the trimmed `t` on the header
`sp t` as on the header `Bearer t`; and `authenticate` treats the two requests alike: either both
continue the chain with the same credential, or both are rejected with the same response, or
both panic alike. -/
theorem parseToken_scheme_case_insensitive
    (env : Env) (s : State) (reqA reqB : Request) (sp t : String)
    (hsp : bearerSpelling sp = true)
    (hA : reqA.HeaderParameter "Authorization" = sp ++ " " ++ t)
    (hB : reqB.HeaderParameter "Authorization" = "Bearer " ++ t) :
    parseToken reqA = TrimSpace t
    ∧ parseToken reqB = TrimSpace t
    ∧ ((∃ (cl : JWTClaims) (calls : List Call), ∀ chain : Chain,
          authenticate env { s with req := reqA } chain
            = chain { claims := cl, req := reqA, resp := s.resp, calls := calls }
          ∧ authenticate env { s with req := reqB } chain
            = chain { claims := cl, req := reqB, resp := s.resp, calls := calls })
      ∨ (∃ (w : Write) (calls : List Call), ∀ chain : Chain,
          authenticate env { s with req := reqA } chain
            = Outcome.returned
                { claims := s.claims, req := reqA, resp := s.resp ++ [w], calls := calls }
          ∧ authenticate env { s with req := reqB } chain
            = Outcome.returned
                { claims := s.claims, req := reqB, resp := s.resp ++ [w], calls := calls })
      ∨ (∃ (p : Panic) (cl : JWTClaims) (calls : List Call), ∀ chain : Chain,
          authenticate env { s with req := reqA } chain
            = Outcome.panicked p { claims := cl, req := reqA, resp := s.resp, calls := calls }
          ∧ authenticate env { s with req := reqB } chain
            = Outcome.panicked p { claims := cl, req := reqB, resp := s.resp, calls := calls })) := by
  have hpA : parseToken reqA = TrimSpace t := parseToken_of_bearer reqA sp t hsp hA
  have hpB : parseToken reqB = TrimSpace t :=
    parseToken_of_bearer reqB "Bearer" t (by decide) hB
  refine ⟨hpA, hpB, ?_⟩
  rcases authenticate_by_token env (TrimSpace t) s.claims s.resp s.calls with
    ⟨cl, calls, h⟩ | ⟨w, calls, h⟩ | ⟨p, cl, calls, h⟩
  · exact Or.inl ⟨cl, calls, fun chain => ⟨h reqA chain hpA, h reqB chain hpB⟩⟩
  · exact Or.inr (Or.inl ⟨w, calls, fun chain => ⟨h reqA chain hpA, h reqB chain hpB⟩⟩)
  · exact Or.inr (Or.inr ⟨p, cl, calls, fun chain => ⟨h reqA chain hpA, h reqB chain hpB⟩⟩)

/-- C5, instance: the headers `bearer abc` and `Bearer abc` both yield the token `abc`. -/
theorem parseToken_scheme_case_insensitive_witness :
    parseToken { Header := [("Authorization", ["bearer abc"])], Query := [] } = TrimSpace "abc"
    ∧ parseToken { Header := [("Authorization", ["Bearer abc"])], Query := [] }
        = TrimSpace "abc" := by
  have h := parseToken_scheme_case_insensitive (filterEnv "c2VjcmV0" []) (staleState "" [])
    { Header := [("Authorization", ["bearer abc"])], Query := [] }
    { Header := [("Authorization", ["Bearer abc"])], Query := [] }
    "bearer" "abc" (by decide) (by decide) (by decide)
  exact ⟨h.1, h.2.1⟩

/-! ## The signing secret -/

/-- C6 as stated fails: `AUTH_SECRET` is `c2VjcmV0!`, which is not valid URL-safe base64 (the
decoder reports an error), yet `authenticate` verifies the token against the bytes decoded
before the error and continues the chain. -/
theorem authenticate_uses_undecodable_secret :
    ((filterEnv "c2VjcmV0!" []).DecodeString ((filterEnv "c2VjcmV0!" []).Getenv "AUTH_SECRET")).2
      = some "illegal base64 data at input byte 8"
    ∧ ∀ chain : Chain,
        authenticate (filterEnv "c2VjcmV0!" []) (staleState "Bearer signed.with.secret" []) chain
          = chain
              { claims := { GithubAccessToken := "" }
                req := { Header := [("Authorization", ["Bearer signed.with.secret"])], Query := [] }
                resp := []
                calls := [Call.Parse "signed.with.secret" [115, 101, 99, 114, 101, 116]] } := by
  refine ⟨by decide, ?_⟩
  intro chain
  rfl

/-- C6, amended: `authenticate` discards the error of decoding `AUTH_SECRET`.  When the value is
not valid URL-safe base64 and the request carries a non-empty token, the token is verified
against the bytes the decoder returned (the one call made is `jwt.Parse` with that key), the
outcome is the one an error-free decoding to the same bytes would give, and the chain continues
when that verification yields a valid token whose `identities` claim is absent (then with an
empty credential) or is a list whose first record has a string `access_token` (then with that
credential). -/
theorem authenticate_discards_decoding_error
    (env : Env) (s : State) (err : String)
    (_hdec : (env.DecodeString (env.Getenv "AUTH_SECRET")).2 = some err)
    (htok : parseToken s.req ≠ "") :
    (∀ chain : Chain, ∃ s1 : State,
        s1.calls = s.calls ++
          [Call.Parse (parseToken s.req) (env.DecodeString (env.Getenv "AUTH_SECRET")).1]
        ∧ (authenticate env s chain = chain s1 ∨ authenticate env s chain = Outcome.returned s1
          ∨ ∃ p, authenticate env s chain = Outcome.panicked p s1))
    ∧ (∀ chain : Chain,
        authenticate env s chain
          = authenticate { env with DecodeString := fun v => ((env.DecodeString v).1, none) }
              s chain)
    ∧ (∀ token : Token,
        env.Parse (parseToken s.req) (env.DecodeString (env.Getenv "AUTH_SECRET")).1
          = Except.ok token →
        token.Valid = true → token.Claims.lookup "identities" = none →
        ∀ chain : Chain, authenticate env s chain =
          chain
            { claims := { GithubAccessToken := "" }
              req := s.req
              resp := s.resp
              calls := s.calls ++
                [Call.Parse (parseToken s.req) (env.DecodeString (env.Getenv "AUTH_SECRET")).1] })
    ∧ (∀ (token : Token) (record : List (String × JVal)) (rest : List JVal) (c : String),
        env.Parse (parseToken s.req) (env.DecodeString (env.Getenv "AUTH_SECRET")).1
          = Except.ok token →
        token.Valid = true →
        token.Claims.lookup "identities" = some (JVal.array (JVal.object record :: rest)) →
        record.lookup "access_token" = some (JVal.string c) →
        ∀ chain : Chain, authenticate env s chain =
          chain
            { claims := { GithubAccessToken := c }
              req := s.req
              resp := s.resp
              calls := s.calls ++
                [Call.Parse (parseToken s.req) (env.DecodeString (env.Getenv "AUTH_SECRET")).1] }) := by
  refine ⟨?_, ?_, ?_, ?_⟩
  · intro chain
    rcases authenticate_nonempty_token env (parseToken s.req) htok s.claims s.resp s.calls with
      ⟨cl, h⟩ | h | ⟨p, h⟩
    · exact ⟨_, rfl, Or.inl (h s.req chain rfl)⟩
    · exact ⟨_, rfl, Or.inr (Or.inl (h s.req chain rfl))⟩
    · exact ⟨_, rfl, Or.inr (Or.inr ⟨p, h s.req chain rfl⟩)⟩
  · intro chain
    rfl
  · intro token hparse hvalid hids chain
    simp only [authenticate, htok, hparse, hvalid, hids, if_false, if_true]
  · intro token record rest c hparse hvalid hids hrec chain
    simp only [authenticate, htok, hparse, hvalid, hids, firstAccessToken, hrec, if_false,
      if_true]

/-- C6, amended, instance: `AUTH_SECRET` is the undecodable `c2VjcmV0!`, and a request whose
token carries the credential `gho_alice` is still verified against the key `secret` and handed
on with that credential. -/
theorem authenticate_discards_decoding_error_witness :
    authenticate
        (filterEnv "c2VjcmV0!"
          [("identities", JVal.array [JVal.object [("access_token", JVal.string "gho_alice")]])])
        (staleState "Bearer signed.with.secret" []) Outcome.returned
      = Outcome.returned
          { claims := { GithubAccessToken := "gho_alice" }
            req := { Header := [("Authorization", ["Bearer signed.with.secret"])], Query := [] }
            resp := []
            calls := [Call.Parse "signed.with.secret" [115, 101, 99, 114, 101, 116]] } := by
  have h := (authenticate_discards_decoding_error
    (filterEnv "c2VjcmV0!"
      [("identities", JVal.array [JVal.object [("access_token", JVal.string "gho_alice")]])])
    (staleState "Bearer signed.with.secret" []) "illegal base64 data at input byte 8"
    (by decide) (by decide)).2.2.2
    { Valid := true
      Claims := [("identities", JVal.array [JVal.object [("access_token", JVal.string "gho_alice")]])] }
    [("access_token", JVal.string "gho_alice")] [] "gho_alice" rfl rfl rfl rfl Outcome.returned
  exact h

/-! ## Malformed `identities` claims -/

/-- The values on which the unchecked extraction of line 63 panics: any value that is not a
list, the empty list, a list whose first element is not a record, and a first record whose
`access_token` is missing or not a string.  (Line 62 keeps a nil claim away from it.) -/
theorem firstAccessToken_panics (identities : JVal) :
    (∃ p, firstAccessToken identities = Except.error p) ↔
      ¬ ∃ (record : List (String × JVal)) (rest : List JVal) (c : String),
          identities = JVal.array (JVal.object record :: rest)
          ∧ record.lookup "access_token" = some (JVal.string c) := by
  constructor
  · rintro ⟨p, hp⟩ ⟨record, rest, c, rfl, hrec⟩
    simp [firstAccessToken, hrec] at hp
  · intro hno
    cases identities with
    | array xs =>
      cases xs with
      | nil => exact ⟨_, rfl⟩
      | cons x rest =>
        cases x with
        | object record =>
          cases hrec : record.lookup "access_token" with
          | none => exact ⟨Panic.interfaceConversion, by simp [firstAccessToken, hrec]⟩
          | some v =>
            cases v with
            | string c => exact absurd ⟨record, rest, c, rfl, hrec⟩ hno
            | _ => exact ⟨Panic.interfaceConversion, by simp [firstAccessToken, hrec]⟩
        | _ => exact ⟨Panic.interfaceConversion, rfl⟩
    | _ => exact ⟨Panic.interfaceConversion, rfl⟩

/-- On a verified token whose `identities` claim is not nil and has any of the malformed shapes,
`authenticate` panics: it neither continues the chain nor writes a response. -/
theorem authenticate_panics_of_malformed
    (env : Env) (s : State) (token : Token) (identities : JVal) (p : Panic)
    (htok : parseToken s.req ≠ "")
    (hparse : env.Parse (parseToken s.req) (env.DecodeString (env.Getenv "AUTH_SECRET")).1
      = Except.ok token)
    (hvalid : token.Valid = true)
    (hids : token.Claims.lookup "identities" = some identities)
    (hnil : identities ≠ JVal.null)
    (hbad : firstAccessToken identities = Except.error p) :
    ∀ chain : Chain, authenticate env s chain =
      Outcome.panicked p
        { claims := { GithubAccessToken := "" }
          req := s.req
          resp := s.resp
          calls := s.calls ++
            [Call.Parse (parseToken s.req) (env.DecodeString (env.Getenv "AUTH_SECRET")).1] } := by
  intro chain
  cases identities <;>
    first
    | exact absurd rfl hnil
    | simp only [authenticate, htok, hparse, hvalid, hids, hbad, if_false, if_true]

/-- C7, the code at the failing inputs: on a verified token whose `identities` claim is the
empty list, a string, a list of a number, a record without `access_token`, or a record whose
`access_token` is a number, `authenticate` panics instead of continuing the chain with an empty
credential. -/
theorem authenticate_panics_on_malformed_identities :
    (∀ chain : Chain,
      authenticate (filterEnv "c2VjcmV0" [("identities", JVal.array [])])
          (staleState "Bearer signed.with.secret" []) chain
        = Outcome.panicked Panic.indexOutOfRange
            { claims := { GithubAccessToken := "" }
              req := { Header := [("Authorization", ["Bearer signed.with.secret"])], Query := [] }
              resp := []
              calls := [Call.Parse "signed.with.secret" [115, 101, 99, 114, 101, 116]] })
    ∧ (∀ (identities : JVal) (chain : Chain),
        identities = JVal.string "gho_alice"
          ∨ identities = JVal.array [JVal.number 7]
          ∨ identities = JVal.array [JVal.object [("provider", JVal.string "github")]]
          ∨ identities = JVal.array [JVal.object [("access_token", JVal.number 7)]] →
        authenticate (filterEnv "c2VjcmV0" [("identities", identities)])
            (staleState "Bearer signed.with.secret" []) chain
          = Outcome.panicked Panic.interfaceConversion
              { claims := { GithubAccessToken := "" }
                req := { Header := [("Authorization", ["Bearer signed.with.secret"])], Query := [] }
                resp := []
                calls := [Call.Parse "signed.with.secret" [115, 101, 99, 114, 101, 116]] }) := by
  refine ⟨fun chain => rfl, ?_⟩
  intro identities chain h
  rcases h with h | h | h | h <;> subst h <;> rfl

/-! ## The login handler -/

/-- C8: for a login request with a non-empty `code`, when the token endpoint answers with a body
that parses to the access token `x`, signing succeeds with `j`, the profile fetch returns the id
`n` and the login name `l`, and the store accepts the user: `githubLogin` writes the success
response with `jwt = j` and `user_id = "github|n"` (the provider name, a `|`, `n` in decimal),
and makes exactly one store write, for the user with RemoteID `github|n`, Name `l`, Token `x`. -/
theorem githubLogin_success
    (env : Env) (s : State) (status : Nat) (body x j l : String) (n : Int)
    (hcode : s.req.QueryParameter "code" ≠ "")
    (hnew : env.NewRequest "POST" (tokenEndpointURL env s.req) = none)
    (hdo : env.Do (tokenEndpointRequest env s.req)
      = Except.ok { StatusCode := status, Body := Except.ok body })
    (hjson : env.Unmarshal body = Except.ok { AccessToken := x })
    (hsign : env.CreateJWT x (env.Getenv "AUTH_SECRET") = Except.ok j)
    (hprofile : env.GetGithubUser x = Except.ok { Login := l, ID := n })
    (hsave : env.Save { Name := l, RemoteID := "github|" ++ toString n, Token := x } = none) :
    githubLogin env s =
      Outcome.returned
        { claims := s.claims
          req := s.req
          resp := s.resp ++ [Write.Entity { JWT := j, UserID := "github|" ++ toString n }]
          calls := s.calls ++
            [Call.Do (tokenEndpointRequest env s.req),
             Call.CreateJWT x (env.Getenv "AUTH_SECRET"),
             Call.GetGithubUser x,
             Call.Save { Name := l, RemoteID := "github|" ++ toString n, Token := x }] }
    ∧ (Write.Entity { JWT := j, UserID := "github|" ++ toString n }).status = 200
    ∧ [Call.Do (tokenEndpointRequest env s.req),
        Call.CreateJWT x (env.Getenv "AUTH_SECRET"),
        Call.GetGithubUser x,
        Call.Save { Name := l, RemoteID := "github|" ++ toString n, Token := x }].filter
          Call.isSave
        = [Call.Save { Name := l, RemoteID := "github|" ++ toString n, Token := x }] := by
  have hlen : ¬ len (s.req.QueryParameter "code") = 0 :=
    fun h => hcode ((len_eq_zero_iff _).mp h)
  have hurl : ({ Scheme := "https", Host := "github.com", Path := "login/oauth/access_token"
                 RawQuery := Values.Set (Values.Set (Values.Set (Values.Set ([] : Values)
                   "client_id" (env.Getenv "GITHUB_CLIENT_ID"))
                   "client_secret" (env.Getenv "GITHUB_CLIENT_SECRET"))
                   "code" (s.req.QueryParameter "code"))
                   "state" (s.req.QueryParameter "state") } : URL)
      = tokenEndpointURL env s.req := by
    simp [tokenEndpointURL, Values.Set]
  have hreq : ({ Method := "POST", URL := tokenEndpointURL env s.req
                 Header := Values.Add [] "Accept" "application/json" } : HttpRequest)
      = tokenEndpointRequest env s.req := by
    simp [tokenEndpointRequest, Values.Add, List.lookup]
  refine ⟨?_, rfl, rfl⟩
  simp only [githubLogin, hlen, if_false, hurl, hnew, hreq, hdo, hjson, hsign,
    hprofile, hsave, List.append_assoc, List.singleton_append, List.cons_append, List.nil_append]

/-- C8, instance: the code `abc` is exchanged for the credential `xyz` of `alice`, id 42. -/
theorem githubLogin_success_witness :
    githubLogin (loginEnv 200 "\x7b\"access_token\":\"xyz\"\x7d") (loginState "abc") =
      Outcome.returned
        { claims := { GithubAccessToken := "" }
          req := { Header := [], Query := [("code", ["abc"]), ("state", ["st"])] }
          resp := [Write.Entity { JWT := "jwt-for-xyz", UserID := "github|42" }]
          calls :=
            [Call.Do
              { Method := "POST"
                URL :=
                  { Scheme := "https", Host := "github.com", Path := "login/oauth/access_token"
                    RawQuery :=
                      [("state", ["st"]), ("code", ["abc"]), ("client_secret", ["client-secret"]),
                       ("client_id", ["client-id"])] }
                Header := [("Accept", ["application/json"])] },
             Call.CreateJWT "xyz" "c2VjcmV0",
             Call.GetGithubUser "xyz",
             Call.Save { Name := "alice", RemoteID := "github|42", Token := "xyz" }] } := by
  have h := (githubLogin_success (loginEnv 200 "\x7b\"access_token\":\"xyz\"\x7d")
    (loginState "abc") 200 "\x7b\"access_token\":\"xyz\"\x7d" "xyz" "jwt-for-xyz" "alice" 42
    (by decide) rfl rfl rfl rfl rfl rfl).1
  exact h

/-- C9: for a login request whose `code` query parameter is empty or absent, whatever the
`state` parameter and the configuration, `githubLogin` answers with status 401 and the message
of a missing authorization code, and makes no call at all: no request to the IdP, no signing, no
store write. -/
theorem githubLogin_missing_code
    (env : Env) (s : State)
    (hcode : s.req.QueryParameter "code" = "") :
    githubLogin env s =
      Outcome.returned
        { claims := s.claims
          req := s.req
          resp := s.resp ++
            [Write.Error StatusUnauthorized "Missing Authorization Code"
              "No authorization code provided"]
          calls := s.calls }
    ∧ (Write.Error StatusUnauthorized "Missing Authorization Code"
        "No authorization code provided").status = 401 := by
  have hlen : len (s.req.QueryParameter "code") = 0 := (len_eq_zero_iff _).mpr hcode
  refine ⟨?_, rfl⟩
  simp only [githubLogin, hlen, if_true, jsonError]

/-- C9, instance: `code=""` with a `state`, in an environment where every later step would
succeed. -/
theorem githubLogin_missing_code_witness :
    githubLogin (loginEnv 200 "\x7b\"access_token\":\"xyz\"\x7d") (loginState "") =
      Outcome.returned
        { claims := { GithubAccessToken := "" }
          req := { Header := [], Query := [("code", [""]), ("state", ["st"])] }
          resp := [Write.Error 401 "Missing Authorization Code" "No authorization code provided"]
          calls := [] } := by
  have h := (githubLogin_missing_code (loginEnv 200 "\x7b\"access_token\":\"xyz\"\x7d")
    (loginState "") (by decide)).1
  exact h

/-- C10 as stated fails on its non-200 arm: the status of the answer is never read.  A 404
answer with the JSON body `\x7b"error":"Not Found"\x7d` is parsed, `CreateJWT` is invoked on the
empty access token and the profile fetch is attempted; a 500 answer whose body carries an
access token is taken to the end, token issued and user stored. -/
theorem githubLogin_ignores_status :
    githubLogin (loginEnv 404 "\x7b\"error\":\"Not Found\"\x7d") (loginState "abc") =
      Outcome.returned
        { claims := { GithubAccessToken := "" }
          req := { Header := [], Query := [("code", ["abc"]), ("state", ["st"])] }
          resp := [Write.Error 401 "401 Bad credentials" "Unable to get github user"]
          calls :=
            [Call.Do (tokenEndpointRequest (loginEnv 404 "") (loginState "abc").req),
             Call.CreateJWT "" "c2VjcmV0",
             Call.GetGithubUser ""] }
    ∧ githubLogin (loginEnv 500 "\x7b\"access_token\":\"xyz\"\x7d") (loginState "abc") =
      Outcome.returned
        { claims := { GithubAccessToken := "" }
          req := { Header := [], Query := [("code", ["abc"]), ("state", ["st"])] }
          resp := [Write.Entity { JWT := "jwt-for-xyz", UserID := "github|42" }]
          calls :=
            [Call.Do (tokenEndpointRequest (loginEnv 500 "") (loginState "abc").req),
             Call.CreateJWT "xyz" "c2VjcmV0",
             Call.GetGithubUser "xyz",
             Call.Save { Name := "alice", RemoteID := "github|42", Token := "xyz" }] } := by
  decide

/-- C10, amended: for a login request with a non-empty `code`, if the body of the token
endpoint's answer cannot be parsed as JSON, whatever the status of the answer, `githubLogin`
answers with status 401 and the message `Error reading json body`; the only call made is the
request to the token endpoint: `CreateJWT` is not invoked, the profile is not fetched, nothing is
written to the store. -/
theorem githubLogin_unparsable_body
    (env : Env) (s : State) (status : Nat) (body err : String)
    (hcode : s.req.QueryParameter "code" ≠ "")
    (hnew : env.NewRequest "POST" (tokenEndpointURL env s.req) = none)
    (hdo : env.Do (tokenEndpointRequest env s.req)
      = Except.ok { StatusCode := status, Body := Except.ok body })
    (hjson : env.Unmarshal body = Except.error err) :
    githubLogin env s =
      Outcome.returned
        { claims := s.claims
          req := s.req
          resp := s.resp ++ [Write.Error StatusUnauthorized err "Error reading json body"]
          calls := s.calls ++ [Call.Do (tokenEndpointRequest env s.req)] }
    ∧ (Write.Error StatusUnauthorized err "Error reading json body").status = 401 := by
  have hlen : ¬ len (s.req.QueryParameter "code") = 0 :=
    fun h => hcode ((len_eq_zero_iff _).mp h)
  have hurl : ({ Scheme := "https", Host := "github.com", Path := "login/oauth/access_token"
                 RawQuery := Values.Set (Values.Set (Values.Set (Values.Set ([] : Values)
                   "client_id" (env.Getenv "GITHUB_CLIENT_ID"))
                   "client_secret" (env.Getenv "GITHUB_CLIENT_SECRET"))
                   "code" (s.req.QueryParameter "code"))
                   "state" (s.req.QueryParameter "state") } : URL)
      = tokenEndpointURL env s.req := by
    simp [tokenEndpointURL, Values.Set]
  have hreq : ({ Method := "POST", URL := tokenEndpointURL env s.req
                 Header := Values.Add [] "Accept" "application/json" } : HttpRequest)
      = tokenEndpointRequest env s.req := by
    simp [tokenEndpointRequest, Values.Add, List.lookup]
  refine ⟨?_, rfl⟩
  simp only [githubLogin, hlen, if_false, hurl, hnew, hreq, hdo, hjson, jsonError]

/-- C10, amended, instance: a 502 answer with an HTML body. -/
theorem githubLogin_unparsable_body_witness :
    githubLogin (loginEnv 502 "<html>Bad Gateway</html>") (loginState "abc") =
      Outcome.returned
        { claims := { GithubAccessToken := "" }
          req := { Header := [], Query := [("code", ["abc"]), ("state", ["st"])] }
          resp :=
            [Write.Error 401 "invalid character '<' looking for beginning of value"
              "Error reading json body"]
          calls :=
            [Call.Do (tokenEndpointRequest (loginEnv 502 "") (loginState "abc").req)] } := by
  have h := (githubLogin_unparsable_body (loginEnv 502 "<html>Bad Gateway</html>")
    (loginState "abc") 502 "<html>Bad Gateway</html>"
    "invalid character '<' looking for beginning of value"
    (by decide) rfl rfl rfl).1
  exact h

end Kontinuous
